import Mathlib

/-!
# ESP8266 Retro Console — verification of the spec against the source

Shallow embedding of `src/retroconsole8266.ino`.  Conventions used throughout:

* `millis()` timestamps are `Nat` ("time-units"); `millis() - t` on `unsigned
  long` is modelled by truncated `Nat` subtraction (times are monotone in any
  run, so no wraparound occurs within a press / timer window).
* `float` quantities are modelled as `ℚ` (all constants in the source are
  exact decimals, and every operation used is +, -, *, comparisons).
* Per-tick randomness (`random(a,b)`) is passed in as explicit arguments.
* Reads of button state are passed in as an `Inputs` record (the values the
  `InputSystem` queries would return this tick).
* `score` is `unsigned long`, used as a counter; modelled as `Nat`.
-/

/-- The per-tick answers of the input source, as queried by the game code:
`xP` = `isPressed x`, `xJ` = `isJustPressed x`. -/
structure Inputs where
  upP : Bool
  upJ : Bool
  downP : Bool
  downJ : Bool
  leftP : Bool
  leftJ : Bool
  rightP : Bool
  rightJ : Bool
  selP : Bool
  selJ : Bool
deriving DecidableEq, Repr

/-- The all-buttons-idle input. -/
def Inputs.none : Inputs := ⟨false, false, false, false, false, false, false, false, false, false⟩

/-- Input with only a DOWN just-press (and DOWN held). -/
def Inputs.downOnly : Inputs := { Inputs.none with downP := true, downJ := true }

/-- Input with only an UP just-press (and UP held). -/
def Inputs.upOnly : Inputs := { Inputs.none with upP := true, upJ := true }

/-- Input with only a LEFT just-press (and LEFT held). -/
def Inputs.leftOnly : Inputs := { Inputs.none with leftP := true, leftJ := true }

/-- Input with only a RIGHT just-press (and RIGHT held). -/
def Inputs.rightOnly : Inputs := { Inputs.none with rightP := true, rightJ := true }

/-- Input with only a SELECT just-press (and SELECT held). -/
def Inputs.selOnly : Inputs := { Inputs.none with selP := true, selJ := true }

/-! ## Input System (`class InputSystem`, source lines 30–94) -/

namespace InputSys

/-- `InputSystem::ButtonState` (minus the constant `pin` field). -/
structure ButtonState where
  pressed : Bool
  justPressed : Bool
  pressTime : Nat
  longPressHandled : Bool
deriving DecidableEq, Repr

/-- `LONG_PRESS_MS` -/
def LONG_PRESS_MS : Nat := 600

/-- State of one button at program start (`init()` zeroes every field). -/
def initButton : ButtonState := ⟨false, false, 0, false⟩

/-- One button's slice of `InputSystem::update()`: `reading` is the debounced
active-low level read this poll, `now` is `millis()`. -/
def buttonUpdate (b : ButtonState) (reading : Bool) (now : Nat) : ButtonState :=
  let b0 : ButtonState := { b with justPressed := false }
  if reading && !b0.pressed then
    { b0 with pressed := true, justPressed := true, pressTime := now, longPressHandled := false }
  else if !reading && b0.pressed then
    { b0 with pressed := false }
  else
    b0

/-- `InputSystem::isLongPressed` — returns the query result and the mutated
button state (the query sets `longPressHandled` when it fires).  `now` is the
`millis()` value at query time. -/
def isLongPressed (b : ButtonState) (now : Nat) : Bool × ButtonState :=
  if b.pressed && !b.longPressHandled then
    if now - b.pressTime > LONG_PRESS_MS then
      (true, { b with longPressHandled := true })
    else (false, b)
  else (false, b)

/-- One tick of a continuously-held button: poll (`update()` with the button
read active) at time `t`, then query `isLongPressed` at the same tick. -/
def heldPoll (b : ButtonState) (t : Nat) : Bool × ButtonState :=
  let b1 := buttonUpdate b true t
  isLongPressed b1 t

/-- The sequence of `isLongPressed` results over a run of polls at times `ts`
during which the button is continuously held. -/
def heldTrace (b : ButtonState) : List Nat → List Bool
  | [] => []
  | t :: ts =>
    let r := heldPoll b t
    r.1 :: heldTrace r.2 ts

/-- A whole press session started from the untouched initial button state:
the button goes down at poll time `t0` and stays held through the polls at
times `ts`. -/
def pressSession (t0 : Nat) (ts : List Nat) : List Bool :=
  heldTrace initButton (t0 :: ts)

/-- Specification-side helper: keep only the first `true` of a boolean
sequence (used to phrase "fires exactly once, at the first crossing"). -/
def oneShot : List Bool → List Bool
  | [] => []
  | true :: bs => true :: bs.map (fun _ => false)
  | false :: bs => false :: oneShot bs

end InputSys

/-! ## Flappy Bird (`namespace Flappy`, source lines 154–227) -/

namespace Flappy

structure Pipe where
  x : ℚ
  gapY : Int
  active : Bool
  passed : Bool
deriving DecidableEq, Repr

structure State where
  birdY : ℚ
  birdVy : ℚ
  pipe0 : Pipe
  pipe1 : Pipe
deriving DecidableEq, Repr

/-- `Flappy::init` -/
def init : State :=
  { birdY := 32, birdVy := 0,
    pipe0 := ⟨128, 32, true, false⟩,
    pipe1 := ⟨128 + 64 + 10, 32, true, false⟩ }

/-- One iteration of the pipe loop in `Flappy::update`; `gapRand` is the
`random(10, SCREEN_HEIGHT - 10 - PIPE_GAP)` value drawn if the pipe resets. -/
def pipeStep (birdY : ℚ) (gapRand : Int) (p : Pipe) (score : Nat) (go : Bool) :
    Pipe × Nat × Bool :=
  let p := { p with x := p.x - 3/2 }
  let p := if p.x < -10 then { p with x := 128, gapY := gapRand, passed := false } else p
  let go := if p.x < 20 + 4 ∧ p.x + 10 > 20 then
              (if birdY < (p.gapY : ℚ) ∨ birdY + 4 > ((p.gapY : ℚ) + 24) then true else go)
            else go
  if !p.passed ∧ p.x < 20 then ({ p with passed := true }, score + 1, go)
  else (p, score, go)

/-- `Flappy::update` (the two-pipe loop is unrolled; `gap0`/`gap1` are the
random gap positions drawn if the respective pipe resets this tick). -/
def update (i : Inputs) (gap0 gap1 : Int) (st : State) (score : Nat) :
    State × Nat × Bool :=
  let vy := st.birdVy + 1/4
  let y := st.birdY + vy
  let vy := if i.selJ || i.upJ then (-5/2 : ℚ) else vy
  let go : Bool := decide (y < 0 ∨ y > 64 - 8)
  let r0 := pipeStep y gap0 st.pipe0 score go
  let r1 := pipeStep y gap1 st.pipe1 r0.2.1 r0.2.2
  ({ birdY := y, birdVy := vy, pipe0 := r0.1, pipe1 := r1.1 }, r1.2.1, r1.2.2)

end Flappy

/-! ## Snake (`namespace Snake`, source lines 230–318) -/

namespace Snake

structure Pt where
  x : Int
  y : Int
deriving DecidableEq, Repr

structure State where
  body : List Pt      -- indices 0..length-1 of the source array
  dir : Pt
  food : Pt
  lastMove : Nat
  speedMs : Nat
deriving DecidableEq, Repr

/-- `Snake::spawnFood`: the do/while resample loop, with the stream of
`random` draws passed in as `cands`; it keeps resampling until the candidate
is off the body.  (If every candidate is on the body the C loop would spin
forever; the model then keeps `fallback`.) -/
def spawnFood (body : List Pt) (cands : List Pt) (fallback : Pt) : Pt :=
  (cands.find? (fun c => !body.contains c)).getD fallback

/-- `Snake::init` (`now` is `millis()` at init time). -/
def init (now : Nat) (cands : List Pt) : State :=
  let body : List Pt := [⟨10, 10⟩, ⟨9, 10⟩, ⟨8, 10⟩]
  { body := body, dir := ⟨1, 0⟩, food := spawnFood body cands ⟨0, 0⟩,
    lastMove := now, speedMs := 150 }

/-- The direction-input block at the top of `Snake::update` (an else-if
chain, each branch gated on the current direction's axis). -/
def newDir (dir : Pt) (i : Inputs) : Pt :=
  if i.upJ ∧ dir.y = 0 then ⟨0, -1⟩
  else if i.downJ ∧ dir.y = 0 then ⟨0, 1⟩
  else if i.leftJ ∧ dir.x = 0 then ⟨-1, 0⟩
  else if i.rightJ ∧ dir.x = 0 then ⟨1, 0⟩
  else dir

/-- The head position after a move tick: old head plus the (gated) new
direction. -/
def nextHead (st : State) (i : Inputs) : Pt :=
  ⟨(st.body.headD ⟨0, 0⟩).x + (newDir st.dir i).x,
   (st.body.headD ⟨0, 0⟩).y + (newDir st.dir i).y⟩

/-- `Snake::update`.  `cands` feeds `spawnFood` on an eat.  The grid is
`128/4 = 32` columns by `64/4 = 16` rows with rows `0,1` reserved. -/
def update (now : Nat) (i : Inputs) (cands : List Pt) (st : State) (score : Nat) :
    State × Nat × Bool :=
  let d := newDir st.dir i
  if now - st.lastMove > st.speedMs then
    let h : Pt := nextHead st i
    let body := h :: st.body.dropLast
    let st1 : State := { st with dir := d, body := body, lastMove := now }
    if h.x < 0 ∨ 32 ≤ h.x ∨ h.y < 2 ∨ 16 ≤ h.y then
      (st1, score, true)
    else if body.tail.contains h then
      (st1, score, true)
    else if h = st.food then
      -- length++ (capped at MAX_LEN = 128): the grown slot holds the stale
      -- array cell, overwritten by the next shift; modelled as a tail copy.
      let body2 := if body.length < 128 then body ++ [body.getLastD ⟨0, 0⟩] else body
      ({ st1 with body := body2,
                  food := spawnFood body2 cands st.food,
                  speedMs := if st1.speedMs > 50 then st1.speedMs - 2 else st1.speedMs },
       score + 1, false)
    else (st1, score, false)
  else ({ st with dir := d }, score, false)

end Snake

/-! ## Pong (`namespace Pong`, source lines 321–403) -/

namespace Pong

structure State where
  ballX : ℚ
  ballY : ℚ
  ballVx : ℚ
  ballVy : ℚ
  paddleY : ℚ
  aiY : ℚ
deriving DecidableEq, Repr

/-- `Pong::init` -/
def init : State := ⟨64, 32, 2, 3/2, 26, 26⟩

/-- The player-paddle block of `Pong::update` (move then clamp to `[8, 52]`). -/
def playerMove (p : ℚ) (i : Inputs) : ℚ :=
  let p := if i.upP then p - 2 else p
  let p := if i.downP then p + 2 else p
  let p := if p < 8 then 8 else p
  if p > 52 then 52 else p

/-- The AI-paddle tracking block of `Pong::update`: two successive `if`s,
each moving by 1.5 (`PADDLE_H/2 = 6`). -/
def aiTrack (aiY ballY : ℚ) : ℚ :=
  let a := if aiY + 6 < ballY then aiY + 3/2 else aiY
  if a + 6 > ballY then a - 3/2 else a

/-- The AI clamp to `[8, 52]`. -/
def aiClamp (a : ℚ) : ℚ :=
  let a := if a < 8 then 8 else a
  if a > 52 then 52 else a

/-- The AI paddle's position after its block of `Pong::update`. -/
def aiPos (st : State) : ℚ := aiClamp (aiTrack st.aiY st.ballY)

/-- Ball x after `ballX += ballVx`. -/
def movedX (st : State) : ℚ := st.ballX + st.ballVx

/-- Ball y after `ballY += ballVy`. -/
def movedY (st : State) : ℚ := st.ballY + st.ballVy

/-- The player-paddle (left) collision test of `Pong::update`. -/
abbrev hitPlayer (st : State) (i : Inputs) : Prop :=
  movedX st ≤ 5 ∧ movedY st ≥ playerMove st.paddleY i ∧
    movedY st ≤ playerMove st.paddleY i + 12

/-- Ball x after the player-paddle block (snapped to 5 on a hit). -/
def postPlayerX (st : State) (i : Inputs) : ℚ :=
  if hitPlayer st i then 5 else movedX st

/-- The AI-paddle (right) collision test of `Pong::update`. -/
abbrev hitAI (st : State) (i : Inputs) : Prop :=
  postPlayerX st i ≥ 121 ∧ movedY st ≥ aiPos st ∧ movedY st ≤ aiPos st + 12

/-- Ball x after both paddle blocks (snapped to 121 on an AI hit). -/
def finalX (st : State) (i : Inputs) : ℚ :=
  if hitAI st i then 121 else postPlayerX st i

/-- `Pong::update`. -/
def update (i : Inputs) (st : State) (score : Nat) : State × Nat × Bool :=
  let pY := playerMove st.paddleY i
  let aY := aiPos st
  let by0 := movedY st
  let vy := if by0 ≤ 8 ∨ by0 ≥ 62 then -st.ballVy else st.ballVy
  -- player paddle (left): reverse and speed up 1.1x, snap x to 5
  let vx1 := if hitPlayer st i then -st.ballVx * (11/10) else st.ballVx
  -- AI paddle (right): exact reversal, snap x to 121
  let vx2 := if hitAI st i then -vx1 else vx1
  let bx2 := finalX st i
  let go : Bool := decide (bx2 < 0)
  if bx2 > 128 then
    ({ ballX := 13, ballY := pY + 6, ballVx := 2, ballVy := 3/2, paddleY := pY, aiY := aY },
     score + 1, go)
  else
    ({ ballX := bx2, ballY := by0, ballVx := vx2, ballVy := vy, paddleY := pY, aiY := aY },
     score, go)

end Pong

/-! ## Brick Breaker (`namespace Brick`, source lines 406–531) -/

namespace Brick

/-- Truncation toward zero of a rational, as C's float-to-int conversion. -/
def truncQ (q : ℚ) : Int := q.num.tdiv q.den

structure State where
  ballX : ℚ
  ballY : ℚ
  ballVx : ℚ
  ballVy : ℚ
  paddleX : ℚ
  bricks : List (List Bool)   -- ROWS = 8 rows of COLS = 12 cells
  lastRowTime : Nat
  speedMs : Nat
deriving DecidableEq, Repr

/-- `Brick::spawnRow`: shift all rows down, then a fresh top row (`newRow` is
the row of `random(0,10) > 3` draws). -/
def spawnRow (newRow : List Bool) (bricks : List (List Bool)) : List (List Bool) :=
  newRow :: bricks.dropLast

/-- `Brick::init`; `r1 r2 r3` are the random rows of the three initial
`spawnRow()` calls. -/
def init (now : Nat) (r1 r2 r3 : List Bool) : State :=
  { ballX := 64, ballY := 54, ballVx := 3/2, ballVy := -3/2, paddleX := 54,
    bricks := spawnRow r3 (spawnRow r2 (spawnRow r1 (List.replicate 8 (List.replicate 12 false)))),
    lastRowTime := now, speedMs := 5000 }

/-- Read brick cell `(row, col)`. -/
def brickAt (bricks : List (List Bool)) (row col : Nat) : Bool :=
  (bricks.getD row []).getD col false

/-- Clear brick cell `(row, col)`. -/
def clearBrick (bricks : List (List Bool)) (row col : Nat) : List (List Bool) :=
  bricks.set row ((bricks.getD row []).set col false)

/-- `Brick::update`; `newRow` is the random row used if a row spawns. -/
def update (now : Nat) (i : Inputs) (newRow : List Bool) (st : State) (score : Nat) :
    State × Nat × Bool :=
  let pX := if i.leftP then st.paddleX - 3 else st.paddleX
  let pX := if i.rightP then pX + 3 else pX
  let pX := if pX < 0 then 0 else pX
  let pX := if pX > 128 - 20 then 128 - 20 else pX
  let bx0 := st.ballX + st.ballVx
  let by0 := st.ballY + st.ballVy
  let vx := if bx0 ≤ 0 ∨ bx0 ≥ 128 then -st.ballVx else st.ballVx
  let vy := if by0 ≤ 8 then -st.ballVy else st.ballVy
  let go0 : Bool := decide (by0 > 64)
  -- paddle collision (bottom strip)
  let hitPad : Prop := (by0 ≥ 64 - 3 - 2 ∧ by0 < 64 - 2) ∧ bx0 ≥ pX ∧ bx0 ≤ pX + 20
  let vy := if hitPad then -|vy| else vy
  let vx := if hitPad then ((bx0 - pX) / 20 - 1/2) * 4 else vx
  -- brick collision at the cell under the ball
  let bcol := truncQ (bx0 / 10)
  let brow := truncQ ((by0 - 8) / 6)
  let hitBrick : Prop :=
    0 ≤ brow ∧ brow < 8 ∧ 0 ≤ bcol ∧ bcol < 12 ∧ brickAt st.bricks brow.toNat bcol.toNat
  let bricks := if hitBrick then clearBrick st.bricks brow.toNat bcol.toNat else st.bricks
  let vy := if hitBrick then -vy else vy
  let score := if hitBrick then score + 1 else score
  -- periodic row injection (bottom-row check is the game-over condition)
  if now - st.lastRowTime > st.speedMs then
    let go1 : Bool := go0 || ((bricks.getD 7 []).any id)
    ({ ballX := bx0, ballY := by0, ballVx := vx, ballVy := vy, paddleX := pX,
       bricks := spawnRow newRow bricks, lastRowTime := now,
       speedMs := if st.speedMs > 1000 then st.speedMs - 50 else st.speedMs },
     score, go1)
  else
    ({ ballX := bx0, ballY := by0, ballVx := vx, ballVy := vy, paddleX := pX,
       bricks := bricks, lastRowTime := st.lastRowTime, speedMs := st.speedMs },
     score, go0)

end Brick

/-! ## Knife Thrower (`namespace Knife`, source lines 534–632) -/

namespace Knife

structure State where
  angle : ℚ
  knifeY : ℚ
  knifeFlying : Bool
  knives : List ℚ      -- angles of the stuck knives; knifeCount = knives.length
  knivesToWin : Int
  level : Int
deriving DecidableEq, Repr

/-- `Knife::init` -/
def init : State := ⟨0, 54, false, [], 6, 1⟩

/-- The target-rotation step at the top of `Knife::update`:
`angle += 0.05 + level*0.01; if (angle > 6.28) angle -= 6.28`. -/
def rotStep (angle : ℚ) (level : Int) : ℚ :=
  let a := angle + (1/20 + (level : ℚ) * (1/100))
  if a > 628/100 then a - 628/100 else a

/-- The impact angle on a landing tick:
`hitAngle = angle + 1.57; if (hitAngle > 6.28) hitAngle -= 6.28`. -/
def impactAngle (ang : ℚ) : ℚ :=
  let h := ang + 157/100
  if h > 628/100 then h - 628/100 else h

/-- `Knife::update`.  Constants: rotation step `0.05 + level*0.01`, full turn
`6.28`, impact offset `1.57`, proximity threshold `0.2`, landing line
`CENTER_Y + RADIUS = 27 + 16 = 43`, knife reset height `54`. -/
def update (i : Inputs) (st : State) (score : Nat) : State × Nat × Bool :=
  let ang := rotStep st.angle st.level
  let flying := !st.knifeFlying && i.selJ || st.knifeFlying
  if flying then
    let ky := st.knifeY - 4
    if ky ≤ 43 then
      let hitAngle := impactAngle ang
      let collision := st.knives.any (fun a => decide (|a - hitAngle| < 1/5))
      if collision then
        ({ st with angle := ang, knifeFlying := false, knifeY := 54 }, score, true)
      else if st.knives.length < 20 then
        let knives2 := st.knives ++ [hitAngle]
        if (knives2.length : Int) ≥ st.knivesToWin then
          ({ st with angle := ang, knives := [],
                     level := st.level + 1,
                     knivesToWin := if st.knivesToWin + 2 > 15 then 15 else st.knivesToWin + 2,
                     knifeFlying := false, knifeY := 54 },
           score + 1 + 10, false)
        else
          ({ st with angle := ang, knives := knives2, knifeFlying := false, knifeY := 54 },
           score + 1, false)
      else
        ({ st with angle := ang, knifeFlying := false, knifeY := 54 }, score, false)
    else
      ({ st with angle := ang, knifeFlying := flying, knifeY := ky }, score, false)
  else
    ({ st with angle := ang, knifeFlying := flying }, score, false)

end Knife

/-! ## Dodge Pixels (`namespace Dodge`, source lines 635–708) -/

namespace Dodge

structure Ob where
  x : ℚ
  y : ℚ
  vy : ℚ
  active : Bool
deriving DecidableEq, Repr

structure State where
  obs : List Ob        -- 10 slots
  playerX : ℚ
  playerY : ℚ
  spawnRate : ℚ
  lastSpawn : Nat
deriving DecidableEq, Repr

/-- `Dodge::init` -/
def init (now : Nat) : State :=
  ⟨List.replicate 10 ⟨0, 0, 0, false⟩, 64, 54, 1000, now⟩

/-- Fill the first inactive slot with `o` (the spawn loop's `break`). -/
def activateFirst (o : Ob) : List Ob → List Ob
  | [] => []
  | p :: ps => if !p.active then o :: ps else p :: activateFirst o ps

/-- The obstacle loop of `Dodge::update`: move, collide with the player,
retire past the bottom (awarding a point). -/
def obsLoop (px py : ℚ) : List Ob → Nat → Bool → List Ob × Nat × Bool
  | [], score, go => ([], score, go)
  | ob :: rest, score, go =>
    if ob.active then
      let ob1 := { ob with y := ob.y + ob.vy }
      let go1 := if ob1.x < px + 4 ∧ ob1.x + 4 > px ∧ ob1.y < py + 4 ∧ ob1.y + 4 > py
                 then true else go
      let obS := if ob1.y > 64 then ({ ob1 with active := false }, score + 1) else (ob1, score)
      let r := obsLoop px py rest obS.2 go1
      (obS.1 :: r.1, r.2.1, r.2.2)
    else
      let r := obsLoop px py rest score go
      (ob :: r.1, r.2.1, r.2.2)

/-- `Dodge::update`; `rngX`/`rngV` are the spawn draws
(`random(0, 124)` and `random(10,30)/10.0`). -/
def update (now : Nat) (i : Inputs) (rngX rngV : ℚ) (st : State) (score : Nat) :
    State × Nat × Bool :=
  let px := if i.leftP then st.playerX - 2 else st.playerX
  let px := if i.rightP then px + 2 else px
  let py := if i.upP then st.playerY - 2 else st.playerY
  let py := if i.downP then py + 2 else py
  let px := if px < 0 then 0 else px
  let px := if px > 128 - 4 then 128 - 4 else px
  let py := if py < 8 then 8 else py
  let py := if py > 64 - 4 then 64 - 4 else py
  let spawning : Prop := ((now - st.lastSpawn : Nat) : ℚ) > st.spawnRate
  let obs := if spawning then activateFirst ⟨rngX, 8, rngV, true⟩ st.obs else st.obs
  let rate := if spawning then (if st.spawnRate > 200 then st.spawnRate - 10 else st.spawnRate)
              else st.spawnRate
  let lastSpawn := if spawning then now else st.lastSpawn
  let r := obsLoop px py obs score false
  ({ obs := r.1, playerX := px, playerY := py, spawnRate := rate, lastSpawn := lastSpawn },
   r.2.1, r.2.2)

end Dodge

/-! ## Mario Runner (`namespace Mario`, source lines 711–840) -/

namespace Mario

structure Ent where
  x : ℚ
  y : ℚ
  type : Int          -- 0 = coin, 1 = enemy
  active : Bool
deriving DecidableEq, Repr

structure State where
  playerY : ℚ
  playerVy : ℚ
  ground : List Int    -- COLS = 17 column heights (uint8_t)
  entities : List Ent  -- 5 slots
  speed : ℚ
  offset : ℚ
deriving DecidableEq, Repr

/-- `Mario::init` -/
def init : State :=
  ⟨32, 0, List.replicate 17 50, List.replicate 5 ⟨0, 0, 0, false⟩, 3/2, 0⟩

/-- Fill the first inactive entity slot (the spawn loop's `break`). -/
def activateFirst (o : Ent) : List Ent → List Ent
  | [] => []
  | p :: ps => if !p.active then o :: ps else p :: activateFirst o ps

/-- The entity loop of `Mario::update`: scroll left, collide with the player
(coin scores 10 and despawns, enemy ends the game), despawn off-screen. -/
def entLoop (speed py : ℚ) : List Ent → Nat → Bool → List Ent × Nat × Bool
  | [], score, go => ([], score, go)
  | e :: rest, score, go =>
    if e.active then
      let e1 := { e with x := e.x - speed }
      let hit : Prop := e1.x < 20 + 8 ∧ e1.x + 8 > 20 ∧ e1.y < py + 8 ∧ e1.y + 8 > py
      let eSG : Ent × Nat × Bool :=
        if hit then
          if e1.type = 0 then ({ e1 with active := false }, score + 10, go)
          else (e1, score, true)
        else (e1, score, go)
      let e2 := if eSG.1.x < -8 then { eSG.1 with active := false } else eSG.1
      let r := entLoop speed py rest eSG.2.1 eSG.2.2
      (e2 :: r.1, r.2.1, r.2.2)
    else
      let r := entLoop speed py rest score go
      (e :: r.1, r.2.1, r.2.2)

/-- `Mario::update`.  Randomness: `rngPit = random(0,10)` (pit if `< 2`),
`rngH = random(-4,5)` terrain delta, `rngSpawn = random(0,10)` (entity when
`< 3`), `rngType = random(0,2)`. -/
def update (i : Inputs) (rngPit rngH rngSpawn rngType : Int) (st : State) (score : Nat) :
    State × Nat × Bool :=
  -- jump if grounded at the player's column (PLAYER_X/8 = 2)
  let g2 : Int := st.ground.getD 2 0
  let vy := if (i.selJ || i.upJ) ∧ st.playerY ≥ (g2 : ℚ) - 8 - 2 then (-7/2 : ℚ) else st.playerVy
  let vy := vy + 3/10
  let y := st.playerY + vy
  let y := if y > (g2 : ℚ) - 8 then (g2 : ℚ) - 8 else y
  let vy := if st.playerY + vy > (g2 : ℚ) - 8 then 0 else vy
  let go : Bool := decide (y > 64)
  -- scroll
  let off := st.offset + st.speed
  if off ≥ 8 then
    let prev : Int := st.ground.getLastD 0
    let newCol : Int :=
      if rngPit < 2 then 64 + 20
      else
        let h := prev + rngH
        let h := if h < 32 then 32 else h
        if h > 60 then 60 else h
    let ground := st.ground.tail ++ [newCol]
    let ents :=
      if newCol < 64 ∧ rngSpawn < 3 then
        let e0 : Ent := ⟨(17 - 1) * 8, (newCol : ℚ) - 8, rngType, true⟩
        let e0 := if e0.type = 0 then { e0 with y := e0.y - 16 } else e0
        activateFirst e0 st.entities
      else st.entities
    let r := entLoop st.speed y ents (score + 1) go
    ({ playerY := y, playerVy := vy, ground := ground, entities := r.1,
       speed := st.speed, offset := off - 8 }, r.2.1, r.2.2)
  else
    let r := entLoop st.speed y st.entities score go
    ({ playerY := y, playerVy := vy, ground := st.ground, entities := r.1,
       speed := st.speed, offset := off }, r.2.1, r.2.2)

end Mario

/-! ## Helicopter (`namespace Heli`, source lines 843–921) -/

namespace Heli

structure State where
  y : ℚ
  vy : ℚ
  roof : List Int      -- COLS = 17 (uint8_t)
  floorH : List Int    -- the source's `floor` array
  offset : ℚ
  speed : ℚ
deriving DecidableEq, Repr

/-- `Heli::init` -/
def init : State :=
  ⟨32, 0, List.replicate 17 10, List.replicate 17 54, 0, 2⟩

/-- `Heli::update`.  Randomness: `rngR, rngF = random(-2,3)` cave deltas,
`rngC = random(0,2)` choice when widening a too-narrow gap. -/
def update (i : Inputs) (rngR rngF rngC : Int) (st : State) (score : Nat) :
    State × Nat × Bool :=
  let vy := if i.selP || i.upP then st.vy - 3/10 else st.vy
  let vy := vy + 3/20
  let y := st.y + vy
  let off := st.offset + st.speed
  let scrolled : Prop := off ≥ 8
  let (roof, floorH) :=
    if scrolled then
      let r0 : Int := st.roof.getLastD 0 + rngR
      let f0 : Int := st.floorH.getLastD 0 + rngF
      let r0 := if r0 < 8 then 8 else r0
      let f0 := if f0 > 63 then 63 else f0
      let rf := if f0 - r0 < 20 then (if rngC = 0 then (r0 - 2, f0) else (r0, f0 + 2))
                else (r0, f0)
      (st.roof.tail ++ [rf.1], st.floorH.tail ++ [rf.2])
    else (st.roof, st.floorH)
  let score := if scrolled then score + 1 else score
  let off := if scrolled then off - 8 else off
  -- collision at the player's column (20/8 = 2)
  let go : Bool := decide (y < (roof.getD 2 0 : ℚ) ∨ y + 6 > (floorH.getD 2 0 : ℚ))
  ({ y := y, vy := vy, roof := roof, floorH := floorH, offset := off, speed := st.speed },
   score, go)

end Heli

/-! ## Tunnel Runner (`namespace Tunnel`, source lines 924–992) -/

namespace Tunnel

structure State where
  leftWall : List Int   -- ROWS = 16 (uint8_t)
  rightWall : List Int
  playerX : ℚ
  speedMs : Nat
  lastMove : Nat
deriving DecidableEq, Repr

/-- `Tunnel::init` -/
def init (now : Nat) : State :=
  ⟨List.replicate 16 20, List.replicate 16 (128 - 20), 64, 100, now⟩

/-- `Tunnel::update`.  Randomness: `rngL, rngR = random(-4,5)` wall deltas. -/
def update (now : Nat) (i : Inputs) (rngL rngR : Int) (st : State) (score : Nat) :
    State × Nat × Bool :=
  let px := if i.leftP then st.playerX - 2 else st.playerX
  let px := if i.rightP then px + 2 else px
  let moved : Prop := now - st.lastMove > st.speedMs
  let (lw, rw) :=
    if moved then
      -- after the shift, row 1 holds the old row 0; a fresh row 0 is generated
      let l : Int := st.leftWall.getD 0 0 + rngL
      let r : Int := st.rightWall.getD 0 0 + rngR
      let l := if l < 0 then 0 else l
      let r := if r > 128 then 128 else r
      let lr := if r - l < 20 then (l - 2, r + 2) else (l, r)
      (lr.1 :: st.leftWall.dropLast, lr.2 :: st.rightWall.dropLast)
    else (st.leftWall, st.rightWall)
  let score := if moved then score + 1 else score
  let lastMove := if moved then now else st.lastMove
  let speedMs := if moved then (if st.speedMs > 20 then st.speedMs - 1 else st.speedMs)
                 else st.speedMs
  -- collision at the player's row (ROWS - 2 = 14)
  let go : Bool := decide (px < (lw.getD 14 0 : ℚ) ∨ px + 4 > (rw.getD 14 0 : ℚ))
  ({ leftWall := lw, rightWall := rw, playerX := px, speedMs := speedMs, lastMove := lastMove },
   score, go)

end Tunnel

/-! ## Doodle Jump (`namespace Doodle`, source lines 995–1075) -/

namespace Doodle

structure Plat where
  x : ℚ
  y : ℚ
  active : Bool
deriving DecidableEq, Repr

structure State where
  playerX : ℚ
  playerY : ℚ
  playerVy : ℚ
  plats : List Plat    -- 10 slots
  cameraY : ℚ
  maxScoreY : ℚ
deriving DecidableEq, Repr

/-- `Doodle::init`; `rngs` are the `(x, y)` draws for the 10 initial
platforms' x positions (y is deterministic `64 - i*15`). -/
def init (xs : List ℚ) : State :=
  { playerX := 64, playerY := 32, playerVy := 0,
    plats := (List.range 10).map (fun k => ⟨xs.getD k 0, (64 : ℚ) - k * 15, true⟩),
    cameraY := 0, maxScoreY := 0 }

/-- The camera-shift loop over platforms: move each platform down by `diff`;
a platform pushed below the screen respawns at a random spot near the top.
`rngs` supplies the `(random(-10,0), random(0,118))` draws per slot. -/
def shiftPlats (diff : ℚ) : List Plat → List (ℚ × ℚ) → List Plat
  | [], _ => []
  | p :: ps, rs =>
    let p1 := { p with y := p.y + diff }
    let p2 := if p1.y > 64 then { p1 with y := (rs.headD (0, 0)).2, x := (rs.headD (0, 0)).1 }
              else p1
    p2 :: shiftPlats diff ps rs.tail

/-- The landing loop: while falling, any platform overlapped from above
resets the velocity to the jump impulse. -/
def bounce (px py : ℚ) (plats : List Plat) (vy : ℚ) : ℚ :=
  plats.foldl (fun v p =>
    if px + 4 > p.x ∧ px < p.x + 10 ∧ py + 8 > p.y ∧ py + 8 < p.y + 8 then (-4 : ℚ) else v) vy

/-- C's float-to-`unsigned long` conversion of the (always nonnegative)
`maxScoreY / 10`: truncation, i.e. the floor for nonnegative values. -/
def scoreOf (q : ℚ) : Nat := (⌊q⌋).toNat

/-- `Doodle::update`; `rngs` feeds platform respawns during a camera shift. -/
def update (i : Inputs) (rngs : List (ℚ × ℚ)) (st : State) (score : Nat) :
    State × Nat × Bool :=
  let px := if i.leftP then st.playerX - 2 else st.playerX
  let px := if i.rightP then px + 2 else px
  let px := if px < -4 then (128 : ℚ) else px
  let px := if px > 128 then (-4 : ℚ) else px
  let vy := st.playerVy + 1/5
  let y := st.playerY + vy
  -- camera follow: runs when the player rises above mid-screen
  let climbing : Prop := y < 32
  let diff := 32 - y
  let y1 := if climbing then (32 : ℚ) else y
  let cameraY := if climbing then st.cameraY + diff else st.cameraY
  let maxScoreY := if climbing then st.maxScoreY + diff else st.maxScoreY
  let score := if climbing then scoreOf (maxScoreY / 10) else score
  let plats := if climbing then shiftPlats diff st.plats rngs else st.plats
  -- platform landing (only while falling)
  let vy := if vy > 0 then bounce px y1 plats vy else vy
  let go : Bool := decide (y1 > 64)
  ({ playerX := px, playerY := y1, playerVy := vy, plats := plats,
     cameraY := cameraY, maxScoreY := maxScoreY }, score, go)

end Doodle

/-! ## Stack Builder (`namespace Stack`, source lines 1078–1146) -/

namespace StackB

structure State where
  currentX : ℚ
  currentW : ℚ
  speed : ℚ
  movingRight : Bool
  prevX : ℚ
  prevW : ℚ
  stackHeight : Int
deriving DecidableEq, Repr

/-- `Stack::init` -/
def init : State :=
  { currentW := 60, currentX := 0, speed := 3/2, movingRight := true,
    prevX := (128 - 60) / 2, prevW := 60, stackHeight := 0 }

/-- The sweep portion of `Stack::update` (horizontal bounce). -/
def move (st : State) : State :=
  if st.movingRight then
    let x := st.currentX + st.speed
    if x + st.currentW ≥ 128 then { st with currentX := x, movingRight := false }
    else { st with currentX := x }
  else
    let x := st.currentX - st.speed
    if x ≤ 0 then { st with currentX := x, movingRight := true }
    else { st with currentX := x }

/-- The overlap of the moved block with the previous block, as computed at a
drop: `min(right edges) - max(left edges)`. -/
def overlapOf (st : State) : ℚ :=
  min (st.currentX + st.currentW) (st.prevX + st.prevW) - max st.currentX st.prevX

/-- `Stack::update`. -/
def update (i : Inputs) (st : State) (score : Nat) : State × Nat × Bool :=
  let st1 := move st
  if i.selJ then
    let left := max st1.currentX st1.prevX
    let overlap := overlapOf st1
    if overlap ≤ 0 then (st1, score, true)
    else
      ({ st1 with prevX := left, prevW := overlap, currentW := overlap,
                  currentX := 0, movingRight := true,
                  stackHeight := st1.stackHeight + 1, speed := st1.speed + 1/5 },
       score + 1, false)
  else (st1, score, false)

end StackB

/-! ## Tetris (`namespace Tetris`, source lines 1149–1315) -/

namespace Tetris

structure Piece where
  x : Int
  y : Int
  type : Nat
  rot : Nat
deriving DecidableEq, Repr

/-- `Tetris::getBlocks`: the per-type rotation offset tables.  For a type or
rotation outside the tables the C function leaves its outputs unassigned
(callers always pass `type ∈ [0,7)`, `rot ∈ [0,4)`); modelled as no blocks. -/
def getBlocks (type rot : Nat) : List (Int × Int) :=
  match type with
  | 0 => if rot % 2 == 0 then [(0,1),(1,1),(2,1),(3,1)] else [(1,0),(1,1),(1,2),(1,3)]
  | 1 => [(1,0),(2,0),(1,1),(2,1)]
  | 2 => match rot with
         | 0 => [(1,0),(0,1),(1,1),(2,1)]
         | 1 => [(1,0),(1,1),(2,1),(1,2)]
         | 2 => [(0,1),(1,1),(2,1),(1,2)]
         | 3 => [(1,0),(0,1),(1,1),(1,2)]
         | _ => []
  | 3 => if rot % 2 == 0 then [(1,0),(2,0),(0,1),(1,1)] else [(1,0),(1,1),(2,1),(2,2)]
  | 4 => if rot % 2 == 0 then [(0,0),(1,0),(1,1),(2,1)] else [(2,0),(1,1),(2,1),(1,2)]
  | 5 => match rot with
         | 0 => [(0,0),(0,1),(1,1),(2,1)]
         | 1 => [(1,0),(2,0),(1,1),(1,2)]
         | 2 => [(0,1),(1,1),(2,1),(2,2)]
         | 3 => [(1,0),(1,1),(0,2),(1,2)]
         | _ => []
  | 6 => match rot with
         | 0 => [(2,0),(0,1),(1,1),(2,1)]
         | 1 => [(1,0),(1,1),(1,2),(2,2)]
         | 2 => [(0,1),(1,1),(2,1),(0,2)]
         | 3 => [(0,0),(1,0),(1,1),(1,2)]
         | _ => []
  | _ => []

/-- The cell-checking loop of `Tetris::checkCollision` over a block list:
out-of-field left/right/bottom is a collision before any grid read; negative
rows are treated as empty (the grid is not read there thanks to the
short-circuit `ny >= 0 &&`). -/
def collAux (g : List Nat) (px py : Int) : List (Int × Int) → Bool
  | [] => false
  | b :: rest =>
    let nx := px + b.1
    let ny := py + b.2
    if nx < 0 ∨ 10 ≤ nx ∨ 20 ≤ ny then true
    else if 0 ≤ ny ∧ Nat.testBit (g.getD ny.toNat 0) nx.toNat then true
    else collAux g px py rest

/-- `Tetris::checkCollision` for piece type `type` at `(px, py)`, rotation `rot`. -/
def checkCollision (g : List Nat) (type : Nat) (px py : Int) (rot : Nat) : Bool :=
  collAux g px py (getBlocks type rot)

/-- The row indices `checkCollision` actually reads from `grid`, in order
(mirrors `collAux` including its early returns and short-circuits). -/
def collReads (g : List Nat) (px py : Int) : List (Int × Int) → List Int
  | [] => []
  | b :: rest =>
    let nx := px + b.1
    let ny := py + b.2
    if nx < 0 ∨ 10 ≤ nx ∨ 20 ≤ ny then []
    else if 0 ≤ ny then
      if Nat.testBit (g.getD ny.toNat 0) nx.toNat then [ny]
      else ny :: collReads g px py rest
    else collReads g px py rest

/-- The cell-writing loop of `Tetris::placePiece`: `grid[ny] |= 1 << nx`
guarded by `ny >= 0`. -/
def placeAux (g : List Nat) (px py : Int) : List (Int × Int) → List Nat
  | [] => g
  | b :: rest =>
    let nx := px + b.1
    let ny := py + b.2
    let g1 := if 0 ≤ ny then g.set ny.toNat (g.getD ny.toNat 0 ||| (1 <<< nx.toNat)) else g
    placeAux g1 px py rest

/-- `Tetris::placePiece`. -/
def placePiece (g : List Nat) (p : Piece) : List Nat :=
  placeAux g p.x p.y (getBlocks p.type p.rot)

/-- The row indices `placePiece` writes (those with `ny ≥ 0`). -/
def placeWrites (py : Int) (blocks : List (Int × Int)) : List Int :=
  blocks.filterMap (fun b => if 0 ≤ py + b.2 then some (py + b.2) else none)

/-- The row-removal shift of a cleared row `y`: rows above move down one,
row 0 becomes empty (`for k=y..1: grid[k]=grid[k-1]; grid[0]=0`). -/
def clearRow (g : List Nat) (y : Nat) : List Nat :=
  0 :: (g.take y ++ g.drop (y + 1))

/-- The line-clear loop of `Tetris::update` (`for y = 0..ROWS-1`, testing
`grid[y] == 1023`), threading score and `dropSpeed`. -/
def clearLinesGo : Nat → Nat → List Nat → Nat → Int → List Nat × Nat × Int
  | 0, _, g, s, d => (g, s, d)
  | n + 1, y, g, s, d =>
    if g.getD y 0 = 1023 then clearLinesGo n (y + 1) (clearRow g y) (s + 10) (d - 10)
    else clearLinesGo n (y + 1) g s d

/-- The whole line-clear pass over the 20 rows. -/
def clearLines (g : List Nat) (s : Nat) (d : Int) : List Nat × Nat × Int :=
  clearLinesGo 20 0 g s d

/-- `Tetris::spawnPiece`; `t` is the `random(0,7)` draw. -/
def spawnPiece (t : Nat) : Piece := ⟨3, -2, t, 0⟩

structure State where
  grid : List Nat      -- ROWS = 20 bitmask rows, 10 bits used
  curr : Piece
  lastDrop : Nat
  dropSpeed : Int
deriving DecidableEq, Repr

/-- `Tetris::init` -/
def init (now : Nat) (t : Nat) : State :=
  ⟨List.replicate 20 0, spawnPiece t, now, 500⟩

/-- `int` converted to `unsigned long` for the C comparison
`millis() - lastDrop > dropSpeed`. -/
def intToU32 (z : Int) : Nat := (z % 4294967296).toNat

/-- `Tetris::update`; `nextType` is the `random(0,7)` draw of the spawn that
follows a lock. -/
def update (now : Nat) (i : Inputs) (nextType : Nat) (st : State) (score : Nat) :
    State × Nat × Bool :=
  let c := st.curr
  let c := if i.selJ && !(checkCollision st.grid c.type c.x c.y ((c.rot + 1) % 4))
           then { c with rot := (c.rot + 1) % 4 } else c
  let c := if i.leftJ && !(checkCollision st.grid c.type (c.x - 1) c.y c.rot)
           then { c with x := c.x - 1 } else c
  let c := if i.rightJ && !(checkCollision st.grid c.type (c.x + 1) c.y c.rot)
           then { c with x := c.x + 1 } else c
  let forceDrop := i.downP
  if forceDrop || decide (now - st.lastDrop > intToU32 st.dropSpeed) then
    if !(checkCollision st.grid c.type c.x (c.y + 1) c.rot) then
      ({ st with curr := { c with y := c.y + 1 }, lastDrop := now }, score, false)
    else if c.y < 0 then
      ({ st with curr := c, lastDrop := now }, score, true)
    else
      let g1 := placePiece st.grid c
      let r := clearLines g1 score st.dropSpeed
      ({ grid := r.1, curr := spawnPiece nextType, lastDrop := now, dropSpeed := r.2.2 },
       r.2.1, false)
  else
    ({ st with curr := c }, score, false)

end Tetris

/-! ## Game Engine / State Machine (`class GameEngine`, source lines 1320–1557) -/

/-- `enum GameState` -/
inductive GState where
  | menu
  | playing
  | paused
deriving DecidableEq, Repr

/-- `enum GameType` order: 0 Flappy, 1 Snake, 2 Brick, 3 Pong, 4 Knife,
5 Mario, 6 Stack, 7 Doodle, 8 Dodge, 9 Tunnel, 10 Tetris, 11 Heli. -/
def GAME_COUNT : Int := 12

structure EngineState where
  currentState : GState
  selectedGame : Int
  menuIndex : Int
  score : Nat
  difficulty : Int
  muted : Bool         -- SoundSystem::muted, toggled through the engine UI
deriving DecidableEq, Repr

/-- Engine state at power-on (field initializers of `GameEngine` and
`SoundSystem`). -/
def engineInit : EngineState :=
  { currentState := .menu, selectedGame := 0, menuIndex := 0, score := 0,
    difficulty := 1, muted := false }

/-- The engine's per-tick inputs: the five just-press queries and the
long-press SELECT query. -/
structure EngineInput where
  upJ : Bool
  downJ : Bool
  leftJ : Bool
  rightJ : Bool
  selJ : Bool
  selLong : Bool
deriving DecidableEq, Repr

def EngineInput.idle : EngineInput := ⟨false, false, false, false, false, false⟩
def EngineInput.down : EngineInput := { EngineInput.idle with downJ := true }
def EngineInput.up : EngineInput := { EngineInput.idle with upJ := true }
def EngineInput.sel : EngineInput := { EngineInput.idle with selJ := true }

/-- A game module's behaviour for one tick, abstracted: given the selected
game id and the score in, it yields the score out and the `gameOver` flag
(the engine's `updateGame` switch passes `score` by reference and reads
`gameOver` afterwards). -/
def ModOracle := Int → Nat → Nat × Bool

/-- `GameEngine::startGame` (minus the init-dispatch side effect, which the
caller reports as the event). -/
def startGame (e : EngineState) : EngineState :=
  { e with currentState := .playing, score := 0, difficulty := 1 }

/-- `GameEngine::updateMenu`.  Returns the new state and, when a game was
committed, `some g` where `g` is the game whose `init()` was invoked. -/
def updateMenu (e : EngineState) (i : EngineInput) : EngineState × Option Int :=
  let e := if i.upJ then
             { e with menuIndex := if e.menuIndex - 1 < 0 then GAME_COUNT - 1 else e.menuIndex - 1 }
           else e
  let e := if i.downJ then
             { e with menuIndex := if e.menuIndex + 1 ≥ GAME_COUNT then 0 else e.menuIndex + 1 }
           else e
  let (e, ev) := if i.selJ then (startGame { e with selectedGame := e.menuIndex }, some e.menuIndex)
                 else (e, Option.none)
  let e := if i.leftJ || i.rightJ then { e with muted := !e.muted } else e
  (e, ev)

/-- `GameEngine::updatePause`. -/
def updatePause (e : EngineState) (i : EngineInput) : EngineState :=
  let e := if i.selJ then { e with currentState := .playing } else e
  let e := if i.leftJ then { e with currentState := .menu } else e
  if i.rightJ then { e with muted := !e.muted } else e

/-- `GameEngine::updateGame`, with the selected module's `update` abstracted
by the oracle `m`. -/
def updateGame (m : ModOracle) (e : EngineState) : EngineState :=
  let r := m e.selectedGame e.score
  let e := { e with score := r.1 }
  if r.2 then { e with currentState := .menu } else e

/-- `GameEngine::update`: the long-press pause gate, then the state switch.
Returns the new state and the init event (set when the menu committed a
game). -/
def engineUpdate (m : ModOracle) (e : EngineState) (i : EngineInput) :
    EngineState × Option Int :=
  if e.currentState = .playing ∧ i.selLong then
    ({ e with currentState := .paused }, Option.none)
  else
    match e.currentState with
    | .menu => updateMenu e i
    | .playing => (updateGame m e, Option.none)
    | .paused => (updatePause e i, Option.none)

/-! # Theorems -/

/-! ## Input system lemmas -/

namespace InputSys

/-- Polling a held button that is already pressed only clears the edge flag. -/
theorem buttonUpdate_held (b : ButtonState) (hb : b.pressed = true) (t : Nat) :
    buttonUpdate b true t = { b with justPressed := false } := by
  simp [buttonUpdate, hb]

/-- Once `longPressHandled` is set, the rest of a held run reports `false`. -/
theorem heldTrace_handled (b : ButtonState) (hb : b.pressed = true)
    (hh : b.longPressHandled = true) (ts : List Nat) :
    heldTrace b ts = ts.map (fun _ => false) := by
  induction ts generalizing b with
  | nil => rfl
  | cons t ts ih =>
    have hlp : isLongPressed { b with justPressed := false } t
        = (false, { b with justPressed := false }) := by simp [isLongPressed, hh]
    simp only [heldTrace, heldPoll, buttonUpdate_held b hb, hlp, List.map_cons]
    exact congrArg _ (ih { b with justPressed := false } (by simpa using hb) (by simpa using hh))

/-- A held run from an unconsumed press at time `p` fires exactly at the
first poll whose elapsed time crosses the threshold. -/
theorem heldTrace_active (b : ButtonState) (hb : b.pressed = true)
    (hh : b.longPressHandled = false) (ts : List Nat) :
    heldTrace b ts = oneShot (ts.map (fun t => decide (t - b.pressTime > 600))) := by
  induction ts generalizing b with
  | nil => rfl
  | cons t ts ih =>
    simp only [heldTrace, heldPoll, buttonUpdate_held b hb, List.map_cons]
    by_cases hcross : t - b.pressTime > 600
    · rw [show isLongPressed { b with justPressed := false } t
            = (true, { b with justPressed := false, longPressHandled := true }) by
          simp [isLongPressed, hb, hh, LONG_PRESS_MS, hcross]]
      rw [show decide (t - b.pressTime > 600) = true by simpa using hcross]
      simp only [oneShot]
      rw [heldTrace_handled { b with justPressed := false, longPressHandled := true }
            (by simpa using hb) rfl, List.map_map]
      rfl
    · rw [show isLongPressed { b with justPressed := false } t
            = (false, { b with justPressed := false }) by
          simp [isLongPressed, hb, hh, LONG_PRESS_MS, hcross]]
      rw [show decide (t - b.pressTime > 600) = false by simpa using hcross]
      simp only [oneShot]
      exact congrArg _ (ih { b with justPressed := false } (by simpa using hb) (by simpa using hh))

/-- Closed form of a whole press session. -/
theorem pressSession_eq (t0 : Nat) (ts : List Nat) :
    pressSession t0 ts = false :: oneShot (ts.map (fun t => decide (t - t0 > 600))) := by
  have h1 : heldPoll initButton t0
      = (false, { pressed := true, justPressed := true, pressTime := t0,
                  longPressHandled := false }) := by
    simp [heldPoll, buttonUpdate, initButton, isLongPressed, LONG_PRESS_MS]
  simp only [pressSession, heldTrace, h1]
  exact congrArg _ (heldTrace_active _ rfl rfl ts)

/-- `oneShot` keeps at most one `true`. -/
theorem oneShot_count (l : List Bool) : (oneShot l).count true ≤ 1 := by
  induction l with
  | nil => simp [oneShot]
  | cons b bs ih =>
    cases b with
    | true =>
      simp only [oneShot, List.count_cons_self]
      have : (bs.map (fun _ => false)).count true = 0 := by
        simp [List.count_eq_zero, List.mem_map]
      omega
    | false =>
      simpa [oneShot, List.count_cons] using ih

theorem map_const_false_getD (l : List Bool) (i : Nat) :
    (l.map (fun _ => false)).getD i false = false := by
  induction l generalizing i with
  | nil => rfl
  | cons b bs ih => cases i <;> simp [ih]

/-- Position `i` of `oneShot l` is `true` exactly when `l` is `true` there
and `false` at every earlier position. -/
theorem oneShot_getD (l : List Bool) (i : Nat) :
    (oneShot l).getD i false = true ↔
      (l.getD i false = true ∧ ∀ j, j < i → l.getD j false = false) := by
  induction l generalizing i with
  | nil => simp [oneShot]
  | cons b bs ih =>
    cases b with
    | true =>
      cases i with
      | zero => simp [oneShot]
      | succ n =>
        simp only [oneShot, List.getD_cons_succ, map_const_false_getD]
        constructor
        · intro h; exact absurd h (by simp)
        · rintro ⟨-, hall⟩
          have := hall 0 (Nat.succ_pos n)
          simp at this
    | false =>
      cases i with
      | zero => simp [oneShot]
      | succ n =>
        simp only [oneShot, List.getD_cons_succ, ih]
        constructor
        · rintro ⟨h1, h2⟩
          refine ⟨h1, fun j hj => ?_⟩
          cases j with
          | zero => simp
          | succ m => simpa using h2 m (Nat.lt_of_succ_lt_succ hj)
        · rintro ⟨h1, h2⟩
          exact ⟨h1, fun j hj => by simpa using h2 (j + 1) (Nat.succ_lt_succ hj)⟩

theorem map_decide_getD (ts : List Nat) (t0 : Nat) (i : Nat) :
    (ts.map (fun t => decide (t - t0 > 600))).getD i false
      = decide (ts.getD i 0 - t0 > 600) := by
  induction ts generalizing i with
  | nil => simp [List.getD_nil, Nat.zero_sub]
  | cons t ts ih =>
    cases i with
    | zero => rfl
    | succ n => simpa only [List.getD_cons_succ] using ih n

end InputSys

/-- C2: for a button held continuously across polls, `isLongPressed` returns
true exactly once: it is false on the initial poll, the whole run contains at
most one true, and the answer at poll `i+1` (time `ts[i]`, press start `t0`)
is true exactly when that poll is the first with elapsed held time above the
600 time-unit threshold. -/
theorem longPress_exactly_once (t0 : Nat) (ts : List Nat) :
    (InputSys.pressSession t0 ts).getD 0 false = false ∧
    (InputSys.pressSession t0 ts).count true ≤ 1 ∧
    ∀ i, ((InputSys.pressSession t0 ts).getD (i + 1) false = true ↔
      (ts.getD i 0 - t0 > 600 ∧ ∀ j, j < i → ts.getD j 0 - t0 ≤ 600)) := by
  rw [InputSys.pressSession_eq]
  refine ⟨rfl, ?_, fun i => ?_⟩
  · simpa using InputSys.oneShot_count (ts.map (fun t => decide (t - t0 > 600)))
  · rw [List.getD_cons_succ, InputSys.oneShot_getD]
    simp only [InputSys.map_decide_getD, decide_eq_true_eq, gt_iff_lt]
    constructor
    · rintro ⟨h1, h2⟩
      exact ⟨h1, fun j hj => Nat.le_of_not_lt (by simpa using h2 j hj)⟩
    · rintro ⟨h1, h2⟩
      exact ⟨h1, fun j hj => by simpa using Nat.not_lt_of_le (h2 j hj)⟩

/-- C2 witness: pressed at time 0 and held through polls at 100, 601, 700,
the long press fires exactly at the poll at time 601. -/
theorem longPress_exactly_once_witness :
    (InputSys.pressSession 0 [100, 601, 700]).getD 2 false = true :=
  ((longPress_exactly_once 0 [100, 601, 700]).2.2 1).mpr (by decide)

/-- C8 counterexample: a poll of a held button whose long press was already
consumed (`longPressHandled = true`) leaves that flag set — the poll does NOT
reset the long-press-consumed flag (only the edge flag is cleared each poll;
the flag is cleared only when a new press begins). -/
theorem poll_keeps_longPressHandled :
    (InputSys.buttonUpdate ⟨true, false, 0, true⟩ true 1000).longPressHandled = true ∧
    (InputSys.buttonUpdate ⟨true, false, 0, true⟩ true 1000).justPressed = false := by
  constructor <;> rfl

/-- C8 amended: on every poll the edge flag is recomputed (true exactly on a
rising edge, hence reset whenever no new press begins); the
long-press-consumed flag is cleared only on a rising edge and otherwise kept;
and the long-press signal fires at most once per continuous press. -/
theorem poll_flag_discipline :
    (∀ (b : InputSys.ButtonState) (r : Bool) (n : Nat),
      (InputSys.buttonUpdate b r n).justPressed = (r && !b.pressed)) ∧
    (∀ (b : InputSys.ButtonState) (r : Bool) (n : Nat),
      (InputSys.buttonUpdate b r n).longPressHandled
        = if r && !b.pressed then false else b.longPressHandled) ∧
    (∀ (t0 : Nat) (ts : List Nat), (InputSys.pressSession t0 ts).count true ≤ 1) := by
  refine ⟨?_, ?_, ?_⟩
  · rintro ⟨p, j, pt, h⟩ r n
    cases r <;> cases p <;> simp [InputSys.buttonUpdate]
  · rintro ⟨p, j, pt, h⟩ r n
    cases r <;> cases p <;> simp [InputSys.buttonUpdate]
  · intro t0 ts
    rw [InputSys.pressSession_eq]
    simpa using InputSys.oneShot_count (ts.map (fun t => decide (t - t0 > 600)))

/-- C1: in `Menu`, UP/DOWN just-presses move the cursor with wraparound over
the 12 entries; from the initial state, three DOWN just-presses set
`menuIndex` to 3 and a SELECT just-press then enters `Playing` with the score
reset to 0, committing game 3 and invoking its `init` (the `some 3` event);
and while `Playing` the engine never changes `menuIndex`, so when the module
reports game-over the engine returns to `Menu` with `menuIndex` unchanged. -/
theorem menu_scenario_and_gameover_return :
    (∀ (m : ModOracle) (e : EngineState), e.currentState = .menu →
        0 ≤ e.menuIndex → e.menuIndex < 12 →
        (engineUpdate m e EngineInput.down).1.menuIndex = (e.menuIndex + 1) % 12 ∧
        (engineUpdate m e EngineInput.up).1.menuIndex = (e.menuIndex + 11) % 12 ∧
        (engineUpdate m e EngineInput.down).1.currentState = .menu ∧
        (engineUpdate m e EngineInput.up).1.currentState = .menu) ∧
    (∀ m : ModOracle,
        engineUpdate m
          ((engineUpdate m
            ((engineUpdate m
              ((engineUpdate m engineInit EngineInput.down).1)
              EngineInput.down).1)
            EngineInput.down).1)
          EngineInput.sel
        = ({ currentState := .playing, selectedGame := 3, menuIndex := 3, score := 0,
             difficulty := 1, muted := false }, some 3)) ∧
    (∀ (m : ModOracle) (e : EngineState) (i : EngineInput), e.currentState = .playing →
        (engineUpdate m e i).1.menuIndex = e.menuIndex) ∧
    (∀ (m : ModOracle) (e : EngineState) (i : EngineInput), e.currentState = .playing →
        i.selLong = false → (m e.selectedGame e.score).2 = true →
        (engineUpdate m e i).1.currentState = .menu) := by
  refine ⟨?_, ?_, ?_, ?_⟩
  · intro m e he h0 h12
    refine ⟨?_, ?_, ?_, ?_⟩ <;>
      simp only [engineUpdate, he, updateMenu, EngineInput.down, EngineInput.up,
        EngineInput.idle, GAME_COUNT] <;>
      norm_num <;>
      first
        | exact he
        | (split <;> omega)
  · intro m
    rfl
  · intro m e i he
    by_cases hl : i.selLong
    · simp [engineUpdate, he, hl]
    · simp [engineUpdate, he, hl, updateGame]
      split <;> rfl
  · intro m e i he hl hgo
    simp [engineUpdate, he, hl, updateGame, hgo]

/-- C1 witness: with a module oracle that immediately reports game-over, one
`Playing` tick from the committed state returns to `Menu`, `menuIndex`
untouched at 3. -/
theorem menu_scenario_and_gameover_return_witness :
    (engineUpdate (fun _ s => (s, true))
      { currentState := .playing, selectedGame := 3, menuIndex := 3, score := 7,
        difficulty := 1, muted := false } EngineInput.idle).1.currentState = .menu ∧
    (engineUpdate (fun _ s => (s, true))
      { currentState := .playing, selectedGame := 3, menuIndex := 3, score := 7,
        difficulty := 1, muted := false } EngineInput.idle).1.menuIndex = 3 :=
  ⟨menu_scenario_and_gameover_return.2.2.2 _ _ _ rfl rfl rfl,
   menu_scenario_and_gameover_return.2.2.1 _ _ _ rfl⟩

/-- C4: on a drop (SELECT just-press), zero (or negative) overlap between the
moved block and the previous block ends the session; strictly positive
overlap adds exactly 1 to the score and narrows `currentW` (and `prevW`) to
exactly the overlap width. -/
theorem stack_drop_overlap (i : Inputs) (st : StackB.State) (score : Nat)
    (hsel : i.selJ = true) :
    (StackB.overlapOf (StackB.move st) ≤ 0 →
      StackB.update i st score = (StackB.move st, score, true)) ∧
    (0 < StackB.overlapOf (StackB.move st) →
      (StackB.update i st score).2.1 = score + 1 ∧
      (StackB.update i st score).1.currentW = StackB.overlapOf (StackB.move st) ∧
      (StackB.update i st score).1.prevW = StackB.overlapOf (StackB.move st) ∧
      (StackB.update i st score).2.2 = false) := by
  simp only [StackB.update, hsel, if_true]
  constructor
  · intro h; rw [if_pos h]
  · intro h; rw [if_neg (not_le.mpr h)]; simp

/-- C4 witness: the first drop of a fresh Stack Builder session (overlap
`55/2 > 0`) scores one point and narrows the block to the overlap. -/
theorem stack_drop_overlap_witness :
    (StackB.update Inputs.selOnly StackB.init 0).2.1 = 0 + 1 ∧
    (StackB.update Inputs.selOnly StackB.init 0).1.currentW
      = StackB.overlapOf (StackB.move StackB.init) ∧
    (StackB.update Inputs.selOnly StackB.init 0).1.prevW
      = StackB.overlapOf (StackB.move StackB.init) ∧
    (StackB.update Inputs.selOnly StackB.init 0).2.2 = false :=
  (stack_drop_overlap Inputs.selOnly StackB.init 0 rfl).2
    (by norm_num [StackB.overlapOf, StackB.move, StackB.init])

/-! ## Tetris lemmas -/

namespace Tetris

theorem clearRow_length (g : List Nat) (y : Nat) (hy : y < g.length) :
    (clearRow g y).length = g.length := by
  simp only [clearRow, List.length_cons, List.length_append, List.length_take,
    List.length_drop]
  omega

/-- Row removal at `y` does not touch rows strictly below (larger index). -/
theorem clearRow_getD_gt (g : List Nat) (y i : Nat) (hy : y < g.length) (h : y < i) :
    (clearRow g y).getD i 0 = g.getD i 0 := by
  obtain ⟨k, rfl⟩ : ∃ k, i = k + 1 := ⟨i - 1, by omega⟩
  simp only [clearRow, List.getD_eq_getElem?_getD, List.getElem?_cons_succ]
  rw [List.getElem?_append_right (by simp only [List.length_take]; omega),
    List.getElem?_drop,
    show y + 1 + (k - (List.take y g).length) = k + 1 by
      simp only [List.length_take]; omega]

/-- The clear loop fires exactly on the rows that were full in its input:
score grows by 10 per full row in the scanned range. -/
theorem clearLinesGo_score (fuel : Nat) : ∀ (y : Nat) (g : List Nat) (s : Nat) (d : Int),
    y + fuel ≤ g.length →
    (clearLinesGo fuel y g s d).2.1
      = s + 10 * (List.range' y fuel).countP (fun i => decide (g.getD i 0 = 1023)) := by
  induction fuel with
  | zero => intro y g s d _; simp [clearLinesGo]
  | succ n ih =>
    intro y g s d h
    rw [List.range'_succ, List.countP_cons]
    by_cases hy : g.getD y 0 = 1023
    · simp only [clearLinesGo, if_pos hy]
      rw [ih (y + 1) (clearRow g y) (s + 10) (d - 10)
            (by rw [clearRow_length g y (by omega)]; omega)]
      rw [List.countP_congr (fun i hi => by
        rw [clearRow_getD_gt g y i (by omega)
          (by simpa using (List.mem_range'_1.mp hi).1)])]
      rw [List.getD_eq_getElem?_getD] at hy
      simp [hy]
      omega
    · simp only [clearLinesGo, if_neg hy]
      rw [ih (y + 1) g s d (by omega)]
      rw [List.getD_eq_getElem?_getD] at hy
      simp [hy]

/-- With no full row in range, the clear loop is the identity. -/
theorem clearLinesGo_nofire (fuel : Nat) : ∀ (y : Nat) (g : List Nat) (s : Nat) (d : Int),
    (∀ i, y ≤ i → i < y + fuel → g.getD i 0 ≠ 1023) →
    clearLinesGo fuel y g s d = (g, s, d) := by
  induction fuel with
  | zero => intro y g s d _; rfl
  | succ n ih =>
    intro y g s d h
    simp only [clearLinesGo, if_neg (h y (Nat.le_refl y) (by omega))]
    exact ih (y + 1) g s d (fun i h1 h2 => h i (by omega) (by omega))

/-- With exactly one full row `yy` in range, the clear loop removes that row
(shifting the rows above it down by one) and adds exactly 10 to the score. -/
theorem clearLinesGo_single (fuel : Nat) : ∀ (y : Nat) (g : List Nat) (s : Nat) (d : Int)
    (yy : Nat), y + fuel ≤ g.length → y ≤ yy → yy < y + fuel → g.getD yy 0 = 1023 →
    (∀ i, y ≤ i → i < y + fuel → i ≠ yy → g.getD i 0 ≠ 1023) →
    clearLinesGo fuel y g s d = (clearRow g yy, s + 10, d - 10) := by
  induction fuel with
  | zero => intro y g s d yy _ h1 h2 _ _; omega
  | succ n ih =>
    intro y g s d yy hlen hy1 hy2 hfull hothers
    by_cases hcase : y = yy
    · subst hcase
      simp only [clearLinesGo, if_pos hfull]
      apply clearLinesGo_nofire
      intro i hi1 hi2
      rw [clearRow_getD_gt g y i (by omega) (by omega)]
      exact hothers i (by omega) (by omega) (by omega)
    · simp only [clearLinesGo,
        if_neg (hothers y (Nat.le_refl y) (by omega) hcase)]
      exact ih (y + 1) g s d yy (by omega) (by omega) (by omega) hfull
        (fun i h1 h2 h3 => hothers i (by omega) (by omega) h3)

/-- Counting full rows by index equals counting them by value. -/
theorem countP_range'_eq (g : List Nat) : ∀ y : Nat,
    (List.range' y g.length).countP (fun i => decide (g.getD (i - y) 0 = 1023))
      = g.countP (fun r => decide (r = 1023)) := by
  induction g with
  | nil => intro y; rfl
  | cons a rest ih =>
    intro y
    rw [List.length_cons, List.range'_succ, List.countP_cons]
    rw [List.countP_congr (fun i hi => by
      have h1 : y + 1 ≤ i := (List.mem_range'_1.mp hi).1
      rw [show i - y = (i - (y + 1)) + 1 by omega, List.getD_cons_succ])]
    rw [ih (y + 1), List.countP_cons]
    simp [Nat.sub_self]

theorem placeAux_length : ∀ (bs : List (Int × Int)) (g : List Nat) (px py : Int),
    (placeAux g px py bs).length = g.length := by
  intro bs
  induction bs with
  | nil => intro g px py; rfl
  | cons b rest ih =>
    intro g px py
    simp only [placeAux]
    split
    · rw [ih, List.length_set]
    · rw [ih]

end Tetris

/-- C3: in Tetris, when a piece locks, each fully-set 10-bit row (value 1023)
of the resulting grid is removed in the same lock-processing step, adding
exactly 10 to the score per cleared row with the rows above shifting down by
one; and a drop that locks while the piece origin is still at `y < 0` sets
game over.  Stated as: (i) the clear pass adds `10 * (number of full rows)`
to the score; (ii) with a single full row `y` the grid becomes exactly the
shift-down of the rows above `y`; (iii) a blocked drop at `y < 0` reports
game over and leaves the grid unchanged; (iv) a blocked drop at `y ≥ 0` whose
placement fills exactly one row clears it and adds 10. -/
theorem tetris_line_clear_and_topout :
    (∀ (g : List Nat) (s : Nat) (d : Int), g.length = 20 →
      (Tetris.clearLines g s d).2.1 = s + 10 * g.countP (fun r => decide (r = 1023))) ∧
    (∀ (g : List Nat) (s : Nat) (d : Int) (y : Nat), g.length = 20 → y < 20 →
      g.getD y 0 = 1023 → (∀ i, i < 20 → i ≠ y → g.getD i 0 ≠ 1023) →
      Tetris.clearLines g s d = (Tetris.clearRow g y, s + 10, d - 10)) ∧
    (∀ (st : Tetris.State) (score now ntype : Nat),
      Tetris.checkCollision st.grid st.curr.type st.curr.x (st.curr.y + 1) st.curr.rot = true →
      st.curr.y < 0 →
      Tetris.update now Inputs.downOnly ntype st score
        = ({ st with lastDrop := now }, score, true)) ∧
    (∀ (st : Tetris.State) (score now ntype : Nat) (yy : Nat),
      st.grid.length = 20 →
      Tetris.checkCollision st.grid st.curr.type st.curr.x (st.curr.y + 1) st.curr.rot = true →
      ¬ st.curr.y < 0 → yy < 20 →
      (Tetris.placePiece st.grid st.curr).getD yy 0 = 1023 →
      (∀ i, i < 20 → i ≠ yy → (Tetris.placePiece st.grid st.curr).getD i 0 ≠ 1023) →
      Tetris.update now Inputs.downOnly ntype st score
        = ({ grid := Tetris.clearRow (Tetris.placePiece st.grid st.curr) yy,
             curr := Tetris.spawnPiece ntype, lastDrop := now,
             dropSpeed := st.dropSpeed - 10 }, score + 10, false)) := by
  refine ⟨?_, ?_, ?_, ?_⟩
  · intro g s d hlen
    unfold Tetris.clearLines
    rw [Tetris.clearLinesGo_score 20 0 g s d (by omega)]
    have h := Tetris.countP_range'_eq g 0
    rw [hlen] at h
    rw [← h]
    congr 1
  · intro g s d y hlen hy hfull hothers
    apply Tetris.clearLinesGo_single 20 0 g s d y (by omega) (by omega) (by omega) hfull
    exact fun i _ h2 h3 => hothers i (by omega) h3
  · intro st score now ntype hcol hy
    simp [Tetris.update, Inputs.downOnly, Inputs.none, hcol, hy]
  · intro st score now ntype yy hlen hcol hy hyy hfull hothers
    have hsingle : Tetris.clearLines (Tetris.placePiece st.grid st.curr) score st.dropSpeed
        = (Tetris.clearRow (Tetris.placePiece st.grid st.curr) yy, score + 10,
           st.dropSpeed - 10) := by
      apply Tetris.clearLinesGo_single 20 0 _ score st.dropSpeed yy
      · rw [show (Tetris.placePiece st.grid st.curr).length = st.grid.length from
          Tetris.placeAux_length _ _ _ _]
        omega
      · omega
      · omega
      · exact hfull
      · exact fun i _ h2 h3 => hothers i (by omega) h3
    rw [Tetris.clearLines] at hsingle
    simp [Tetris.update, Inputs.downOnly, Inputs.none, hcol, hy, Tetris.clearLines, hsingle]

/-- C3 witness: an O-piece blocked at spawn height (`y = -2`) tops out, and
an O-piece locking into row 19 of a grid whose row 19 lacked exactly bits 4–5
completes the row, which is cleared for exactly +10 score. -/
theorem tetris_line_clear_and_topout_witness :
    Tetris.update 77 Inputs.downOnly 2
        ⟨(List.replicate 20 0).set 0 48, ⟨3, -2, 1, 0⟩, 0, 500⟩ 5
      = (⟨(List.replicate 20 0).set 0 48, ⟨3, -2, 1, 0⟩, 77, 500⟩, 5, true) ∧
    Tetris.update 77 Inputs.downOnly 2
        ⟨(List.replicate 20 0).set 19 975, ⟨3, 18, 1, 0⟩, 0, 500⟩ 5
      = ({ grid := Tetris.clearRow
             (Tetris.placePiece ((List.replicate 20 0).set 19 975) ⟨3, 18, 1, 0⟩) 19,
           curr := Tetris.spawnPiece 2, lastDrop := 77, dropSpeed := 490 }, 15, false) :=
  ⟨tetris_line_clear_and_topout.2.2.1 ⟨(List.replicate 20 0).set 0 48, ⟨3, -2, 1, 0⟩, 0, 500⟩
      5 77 2 (by decide) (by decide),
   tetris_line_clear_and_topout.2.2.2 ⟨(List.replicate 20 0).set 19 975, ⟨3, 18, 1, 0⟩, 0, 500⟩
      5 77 2 19 (by decide) (by decide) (by decide) (by decide) (by decide) (by decide)⟩

namespace Tetris

/-- If the collision check passes, every block cell sits above row 20. -/
theorem collAux_false_row_lt (g : List Nat) (px py : Int) :
    ∀ bs, collAux g px py bs = false → ∀ b ∈ bs, py + b.2 < 20 := by
  intro bs
  induction bs with
  | nil => simp
  | cons b rest ih =>
    intro h c hc
    simp only [collAux] at h
    by_cases h1 : (px + b.1 < 0 ∨ 10 ≤ px + b.1 ∨ 20 ≤ py + b.2)
    · rw [if_pos h1] at h
      exact absurd h (by simp)
    · rw [if_neg h1] at h
      split at h
      · exact absurd h (by simp)
      · rcases List.mem_cons.mp hc with rfl | hc2
        · push_neg at h1
          omega
        · exact ih h c hc2

end Tetris

/-- C10: `checkCollision` reads the 20-entry grid only at row indices in
`[0, 20)` (out-of-field column or `row ≥ 20` returns a collision before any
read); a cell with negative row and in-range column is skipped without a grid
read and contributes no collision; `placePiece` writes only rows `≥ 0`; and
at any position accepted by `checkCollision` the rows `placePiece` writes all
lie in `[0, 20)` — no grid access is out of bounds. -/
theorem tetris_grid_access_in_bounds :
    (∀ (g : List Nat) (px py : Int) (bs : List (Int × Int)),
      ∀ r ∈ Tetris.collReads g px py bs, 0 ≤ r ∧ r < 20) ∧
    (∀ (g : List Nat) (px py : Int) (b : Int × Int) (bs : List (Int × Int)),
      py + b.2 < 0 → ¬ (px + b.1 < 0 ∨ 10 ≤ px + b.1) →
      Tetris.collAux g px py (b :: bs) = Tetris.collAux g px py bs ∧
      Tetris.collReads g px py (b :: bs) = Tetris.collReads g px py bs) ∧
    (∀ (py : Int) (bs : List (Int × Int)), ∀ w ∈ Tetris.placeWrites py bs, 0 ≤ w) ∧
    (∀ (g : List Nat) (t : Nat) (px py : Int) (rot : Nat),
      Tetris.checkCollision g t px py rot = false →
      ∀ w ∈ Tetris.placeWrites py (Tetris.getBlocks t rot), 0 ≤ w ∧ w < 20) := by
  refine ⟨?_, ?_, ?_, ?_⟩
  · intro g px py bs
    induction bs with
    | nil => intro r hr; simp [Tetris.collReads] at hr
    | cons b rest ih =>
      intro r hr
      simp only [Tetris.collReads] at hr
      by_cases h1 : (px + b.1 < 0 ∨ 10 ≤ px + b.1 ∨ 20 ≤ py + b.2)
      · rw [if_pos h1] at hr
        simp at hr
      · rw [if_neg h1] at hr
        push_neg at h1
        split at hr
        · split at hr
          · simp at hr
            omega
          · rcases List.mem_cons.mp hr with rfl | hr2
            · omega
            · exact ih r hr2
        · exact ih r hr
  · intro g px py b bs hneg hcol
    have h1 : ¬ (px + b.1 < 0 ∨ 10 ≤ px + b.1 ∨ 20 ≤ py + b.2) := by
      push_neg at hcol ⊢
      exact ⟨hcol.1, hcol.2, by omega⟩
    have h0 : ¬ (0 ≤ py + b.2) := by omega
    constructor
    · simp only [Tetris.collAux, if_neg h1]
      simp [h0]
    · simp only [Tetris.collReads, if_neg h1]
      simp [h0]
  · intro py bs w hw
    simp only [Tetris.placeWrites, List.mem_filterMap] at hw
    obtain ⟨b, _, hf⟩ := hw
    split at hf
    · cases hf
      assumption
    · cases hf
  · intro g t px py rot hchk w hw
    simp only [Tetris.placeWrites, List.mem_filterMap] at hw
    obtain ⟨b, hb, hf⟩ := hw
    split at hf
    · cases hf
      exact ⟨by assumption,
        Tetris.collAux_false_row_lt g px py (Tetris.getBlocks t rot) hchk b hb⟩
    · cases hf

/-- C10 witness: for the O-piece at the spawn position over the empty grid
(accepted by `checkCollision`), all `placePiece` writes land in `[0, 20)`,
and the negative-row cells are skipped without a read. -/
theorem tetris_grid_access_in_bounds_witness :
    (∀ w ∈ Tetris.placeWrites (-1) (Tetris.getBlocks 1 0), 0 ≤ w ∧ w < 20) ∧
    (Tetris.collAux (List.replicate 20 0) 3 (-2) ((1, 0) :: Tetris.getBlocks 2 1)
        = Tetris.collAux (List.replicate 20 0) 3 (-2) (Tetris.getBlocks 2 1)) :=
  ⟨tetris_grid_access_in_bounds.2.2.2 (List.replicate 20 0) 1 3 (-1) 0 (by decide),
   (tetris_grid_access_in_bounds.2.1 (List.replicate 20 0) 3 (-2) (1, 0)
      (Tetris.getBlocks 2 1) (by decide) (by decide)).1⟩

/-- C5 counterexample: the collision check uses the plain absolute
difference, with no wrap at the 0/2π boundary.  A stuck knife at angle 6.2
and an impact at angle 0.05 = `impactAngle (rotStep 4.70 1)` are within 0.2
radians across the boundary (circular distance `6.28 - 6.15 = 0.13 < 0.2`),
yet the update reports no collision: the knife sticks and scores instead of
ending the session. -/
theorem knife_boundary_miss :
    (Knife.update Inputs.none ⟨47/10, 45, true, [31/5], 6, 1⟩ 0).2.2 = false ∧
    (Knife.update Inputs.none ⟨47/10, 45, true, [31/5], 6, 1⟩ 0).2.1 = 1 ∧
    (Knife.update Inputs.none ⟨47/10, 45, true, [31/5], 6, 1⟩ 0).1.knives = [31/5, 1/20] ∧
    628/100 - |(31/5 : ℚ) - 1/20| < 1/5 := by
  have habs : |(123/20 : ℚ)| = 123/20 := abs_of_nonneg (by norm_num)
  have habs2 : |(31/5 : ℚ) - 1/20| = 123/20 := by
    rw [show (31/5 : ℚ) - 1/20 = 123/20 by norm_num, habs]
  refine ⟨?_, ?_, ?_, ?_⟩
  · simp only [Knife.update, Knife.rotStep, Knife.impactAngle, Inputs.none]
    norm_num [habs]
  · simp only [Knife.update, Knife.rotStep, Knife.impactAngle, Inputs.none]
    norm_num [habs]
  · simp only [Knife.update, Knife.rotStep, Knife.impactAngle, Inputs.none]
    norm_num [habs]
  · rw [habs2]
    norm_num

/-- C5 amended: on a landing tick, the impact angle is the target's rotation
after this tick plus 1.57, normalized by a single conditional subtraction of
6.28 (staying in `[0, 6.28]` whenever the rotation state is in range and the
level is bounded so one subtraction suffices); the session ends exactly when
some previously stuck knife's angle is within 0.2 of the impact angle by
PLAIN absolute difference — differences are NOT wrapped across the 0/2π
boundary; otherwise (with a free slot and below the level-up threshold) the
impact angle is appended to the stuck list and at least one point is
scored. -/
theorem knife_impact_and_collision (i : Inputs) (st : Knife.State) (score : Nat)
    (hfly : st.knifeFlying = true) (hland : st.knifeY - 4 ≤ 43) :
    ((Knife.update i st score).2.2 = true ↔
      ∃ a ∈ st.knives, |a - Knife.impactAngle (Knife.rotStep st.angle st.level)| < 1/5) ∧
    ((¬ ∃ a ∈ st.knives, |a - Knife.impactAngle (Knife.rotStep st.angle st.level)| < 1/5) →
      st.knives.length < 20 →
      ((st.knives.length : Int) + 1 < st.knivesToWin →
        (Knife.update i st score).1.knives
          = st.knives ++ [Knife.impactAngle (Knife.rotStep st.angle st.level)]) ∧
      score + 1 ≤ (Knife.update i st score).2.1) ∧
    (0 ≤ st.angle → st.angle ≤ 628/100 → 0 ≤ st.level → st.level ≤ 623 →
      0 ≤ Knife.impactAngle (Knife.rotStep st.angle st.level) ∧
      Knife.impactAngle (Knife.rotStep st.angle st.level) ≤ 628/100) := by
  have hflyB : (!st.knifeFlying && i.selJ || st.knifeFlying) = true := by rw [hfly]; simp
  refine ⟨?_, ?_, ?_⟩
  · simp only [Knife.update, hflyB, if_pos hland, if_true]
    by_cases hc : st.knives.any
        (fun a => decide (|a - Knife.impactAngle (Knife.rotStep st.angle st.level)| < 1/5)) = true
    · rw [if_pos hc]
      simpa [List.any_eq_true] using hc
    · rw [if_neg hc]
      simp only [List.any_eq_true, decide_eq_true_eq] at hc
      split
      · split <;> simpa using hc
      · simpa using hc
  · intro hno h20
    have hc : st.knives.any
        (fun a => decide (|a - Knife.impactAngle (Knife.rotStep st.angle st.level)| < 1/5))
          = false := by
      rw [List.any_eq_false]
      intro a ha
      simp only [decide_eq_true_eq]
      exact fun hP => hno ⟨a, ha, hP⟩
    simp only [Knife.update, hflyB, if_pos hland, if_true, hc, Bool.false_eq_true, if_false,
      if_pos h20]
    constructor
    · intro hwin
      rw [if_neg (by
        simp only [List.length_append, List.length_cons, List.length_nil]
        push_cast
        omega)]
    · by_cases hwin : ((st.knives
          ++ [Knife.impactAngle (Knife.rotStep st.angle st.level)]).length : Int)
            ≥ st.knivesToWin
      · rw [if_pos hwin]
        show score + 1 ≤ score + 1 + 10
        omega
      · rw [if_neg hwin]
  · intro h0 h1 h2 h3
    have hl0 : (0 : ℚ) ≤ (st.level : ℚ) := by exact_mod_cast h2
    have hl1 : (st.level : ℚ) ≤ 623 := by exact_mod_cast h3
    simp only [Knife.impactAngle, Knife.rotStep]
    split <;> split <;> constructor <;> linarith

/-- C5 amended witness: a knife landing over an empty target at rotation
`4.70`, level 1, sticks at impact angle `0.05` and scores. -/
theorem knife_impact_and_collision_witness :
    (Knife.update Inputs.none ⟨47/10, 45, true, [], 6, 1⟩ 3).1.knives
      = [] ++ [Knife.impactAngle (Knife.rotStep (47/10) 1)] ∧
    3 + 1 ≤ (Knife.update Inputs.none ⟨47/10, 45, true, [], 6, 1⟩ 3).2.1 :=
  ⟨((knife_impact_and_collision Inputs.none ⟨47/10, 45, true, [], 6, 1⟩ 3 rfl
      (by norm_num)).2.1 (by simp) (by simp)).1 (by norm_num),
   ((knife_impact_and_collision Inputs.none ⟨47/10, 45, true, [], 6, 1⟩ 3 rfl
      (by norm_num)).2.1 (by simp) (by simp)).2⟩

/-- C6: Snake ignores direction input that reverses along the current
movement axis — from any of the four unit headings the gated direction is
either unchanged or perpendicular, and a lone reversal press is a no-op; the
body moves only when the elapsed time since the last move exceeds the
threshold; the threshold starts at 150, drops by exactly 2 on each eat while
above 50, and (being even and at least 50 initially, a property every update
preserves) never goes below 50. -/
theorem snake_turns_and_move_timer :
    (∀ (d : Snake.Pt) (i : Inputs),
      (d = ⟨1,0⟩ ∨ d = ⟨-1,0⟩ ∨ d = ⟨0,1⟩ ∨ d = ⟨0,-1⟩) →
      Snake.newDir d i = d ∨
        (Snake.newDir d i).x * d.x + (Snake.newDir d i).y * d.y = 0) ∧
    (Snake.newDir ⟨1,0⟩ Inputs.leftOnly = ⟨1,0⟩ ∧
     Snake.newDir ⟨-1,0⟩ Inputs.rightOnly = ⟨-1,0⟩ ∧
     Snake.newDir ⟨0,-1⟩ Inputs.downOnly = ⟨0,-1⟩ ∧
     Snake.newDir ⟨0,1⟩ Inputs.upOnly = ⟨0,1⟩) ∧
    (∀ (now : Nat) (i : Inputs) (cands : List Snake.Pt) (st : Snake.State) (score : Nat),
      ¬ (now - st.lastMove > st.speedMs) →
      (Snake.update now i cands st score).1.body = st.body ∧
      (Snake.update now i cands st score).1.lastMove = st.lastMove ∧
      (Snake.update now i cands st score).1.speedMs = st.speedMs ∧
      (Snake.update now i cands st score).2.1 = score ∧
      (Snake.update now i cands st score).2.2 = false) ∧
    (∀ (now : Nat) (i : Inputs) (cands : List Snake.Pt) (st : Snake.State) (score : Nat),
      now - st.lastMove > st.speedMs →
      (Snake.update now i cands st score).1.lastMove = now ∧
      (Snake.update now i cands st score).1.body.headD ⟨0,0⟩ = Snake.nextHead st i) ∧
    (∀ (now : Nat) (i : Inputs) (cands : List Snake.Pt) (st : Snake.State) (score : Nat),
      now - st.lastMove > st.speedMs →
      ¬ ((Snake.nextHead st i).x < 0 ∨ 32 ≤ (Snake.nextHead st i).x ∨
         (Snake.nextHead st i).y < 2 ∨ 16 ≤ (Snake.nextHead st i).y) →
      ¬ (Snake.nextHead st i ∈ st.body.dropLast) →
      Snake.nextHead st i = st.food →
      (Snake.update now i cands st score).1.speedMs
        = (if st.speedMs > 50 then st.speedMs - 2 else st.speedMs) ∧
      (Snake.update now i cands st score).2.1 = score + 1) ∧
    (∀ (now : Nat) (cands : List Snake.Pt), (Snake.init now cands).speedMs = 150) ∧
    (∀ (now : Nat) (i : Inputs) (cands : List Snake.Pt) (st : Snake.State) (score : Nat),
      50 ≤ st.speedMs → st.speedMs % 2 = 0 →
      50 ≤ (Snake.update now i cands st score).1.speedMs ∧
      (Snake.update now i cands st score).1.speedMs % 2 = 0) := by
  refine ⟨?_, ?_, ?_, ?_, ?_, ?_, ?_⟩
  · intro d i hd
    rcases hd with rfl | rfl | rfl | rfl <;>
      simp only [Snake.newDir] <;> split_ifs <;> simp_all
  · refine ⟨?_, ?_, ?_, ?_⟩ <;> decide
  · intro now i cands st score hstill
    simp [Snake.update, hstill]
  · intro now i cands st score hmove
    simp only [Snake.update, if_pos hmove]
    split_ifs <;> simp
  · intro now i cands st score hmove hwall hself heat
    simp only [Snake.update, if_pos hmove, if_neg hwall]
    rw [if_neg (by simpa using hself), if_pos heat]
    split_ifs <;> simp
  · intro now cands
    rfl
  · intro now i cands st score h50 heven
    simp only [Snake.update]
    split_ifs <;> simp_all <;> omega

/-- C6 witness: a tick 50 time-units after the last move of a fresh session
(threshold 150) moves nothing; and the fresh threshold 150 is even and at
least 50, so it stays at least 50 after an update. -/
theorem snake_turns_and_move_timer_witness :
    (Snake.update 50 Inputs.none [] (Snake.init 0 []) 0).1.body = (Snake.init 0 []).body ∧
    50 ≤ (Snake.update 50 Inputs.none [] (Snake.init 0 []) 0).1.speedMs :=
  ⟨(snake_turns_and_move_timer.2.2.1 50 Inputs.none [] (Snake.init 0 []) 0 (by decide)).1,
   (snake_turns_and_move_timer.2.2.2.2.2.2 50 Inputs.none [] (Snake.init 0 []) 0
      (by decide) (by decide)).1⟩

/-- C7: the Pong AI paddle moves per tick in steps of exactly 1.5 towards
aligning its centre (`aiY + 6`) with the ball's y (net 0 when it cannot get
closer, and only before clamping); a player-paddle hit reverses the
horizontal velocity and multiplies it by 1.1; an AI-paddle hit reverses it
exactly; the score increments exactly when the ball crosses the right wall,
and the session ends exactly when it crosses the left wall. -/
theorem pong_ai_hits_and_scoring :
    (∀ a b : ℚ,
      (Pong.aiTrack a b - a = 0 ∨ Pong.aiTrack a b - a = 3/2 ∨
        Pong.aiTrack a b - a = -(3/2)) ∧
      (Pong.aiTrack a b > a → a + 6 < b) ∧
      (Pong.aiTrack a b < a → a + 6 > b)) ∧
    (∀ (i : Inputs) (st : Pong.State) (score : Nat),
      (Pong.update i st score).1.aiY = Pong.aiPos st) ∧
    (∀ (i : Inputs) (st : Pong.State) (score : Nat), Pong.hitPlayer st i →
      (Pong.update i st score).1.ballVx = -st.ballVx * (11/10)) ∧
    (∀ (i : Inputs) (st : Pong.State) (score : Nat),
      ¬ Pong.hitPlayer st i → Pong.hitAI st i →
      (Pong.update i st score).1.ballVx = -st.ballVx) ∧
    (∀ (i : Inputs) (st : Pong.State) (score : Nat),
      ((Pong.update i st score).2.1 = if Pong.finalX st i > 128 then score + 1 else score) ∧
      ((Pong.update i st score).2.2 = true ↔ Pong.finalX st i < 0)) := by
  refine ⟨?_, ?_, ?_, ?_, ?_⟩
  · intro a b
    refine ⟨?_, ?_, ?_⟩ <;> simp only [Pong.aiTrack]
    · split_ifs
      · left; ring
      · right; left; ring
      · right; right; ring
      · left; ring
    · split_ifs <;> intro h <;> linarith
    · split_ifs <;> intro h <;> linarith
  · intro i st score
    simp only [Pong.update]
    split_ifs <;> simp
  · intro i st score hp
    have hpx : Pong.postPlayerX st i = 5 := by simp [Pong.postPlayerX, hp]
    have hAI : ¬ Pong.hitAI st i := fun h => absurd (hpx ▸ h.1) (by norm_num)
    have hfx : Pong.finalX st i = 5 := by simp [Pong.finalX, hAI, hpx]
    simp only [Pong.update, hfx]
    rw [if_neg (by norm_num)]
    simp [hAI, hp]
  · intro i st score hnp ha
    have hfx : Pong.finalX st i = 121 := by simp [Pong.finalX, ha]
    simp only [Pong.update, hfx]
    rw [if_neg (by norm_num)]
    simp [ha, hnp]
  · intro i st score
    refine ⟨?_, ?_⟩ <;> simp only [Pong.update] <;> split_ifs <;> simp

/-- C7 witness: a ball at (4, 30) moving left with velocity (-2, 1) meets the
player paddle at rest (y 26) and leaves with velocity `-(-2) * 1.1`. -/
theorem pong_ai_hits_and_scoring_witness :
    (Pong.update Inputs.none ⟨4, 30, -2, 1, 26, 26⟩ 0).1.ballVx = -(-2 : ℚ) * (11/10) :=
  pong_ai_hits_and_scoring.2.2.1 Inputs.none ⟨4, 30, -2, 1, 26, 26⟩ 0
    (by norm_num [Pong.hitPlayer, Pong.movedX, Pong.movedY, Pong.playerMove, Inputs.none])

/-! ## Score-monotonicity lemmas -/

theorem le_ite_succ (c : Prop) [Decidable c] (s : Nat) : s ≤ if c then s + 1 else s := by
  split <;> omega

theorem pipeStep_score_le (y : ℚ) (g : Int) (p : Flappy.Pipe) (s : Nat) (go : Bool) :
    s ≤ (Flappy.pipeStep y g p s go).2.1 := by
  simp only [Flappy.pipeStep]
  split_ifs <;> simp

theorem obsLoop_score_le (px py : ℚ) :
    ∀ (obs : List Dodge.Ob) (s : Nat) (go : Bool), s ≤ (Dodge.obsLoop px py obs s go).2.1 := by
  intro obs
  induction obs with
  | nil => intro s go; simp [Dodge.obsLoop]
  | cons ob rest ih =>
    intro s go
    simp only [Dodge.obsLoop]
    split_ifs <;> simp <;>
      first
        | exact le_trans (Nat.le_succ s) (ih _ _)
        | exact ih _ _

theorem entLoop_score_le (sp py : ℚ) :
    ∀ (es : List Mario.Ent) (s : Nat) (go : Bool), s ≤ (Mario.entLoop sp py es s go).2.1 := by
  intro es
  induction es with
  | nil => intro s go; simp [Mario.entLoop]
  | cons e rest ih =>
    intro s go
    simp only [Mario.entLoop]
    split_ifs <;> simp <;>
      first
        | exact le_trans (by omega : s ≤ s + 10) (ih _ _)
        | exact ih _ _

theorem clearLinesGo_score_le (fuel : Nat) : ∀ (y : Nat) (g : List Nat) (s : Nat) (d : Int),
    s ≤ (Tetris.clearLinesGo fuel y g s d).2.1 := by
  induction fuel with
  | zero => intro y g s d; simp [Tetris.clearLinesGo]
  | succ n ih =>
    intro y g s d
    simp only [Tetris.clearLinesGo]
    split
    · exact le_trans (by omega : s ≤ s + 10) (ih _ _ _ _)
    · exact ih _ _ _ _

/-- C9 counterexample: Doodle Jump assigns `score = maxScoreY / 10`, so from
a state whose score exceeds that quotient (score 5, `maxScoreY` 0) a single
camera-moving update writes score 1 — the score decreases. -/
theorem doodle_assignment_decreases_score :
    (Doodle.update Inputs.none []
        ⟨10, 20, 0, List.replicate 10 ⟨0, 50, true⟩, 0, 0⟩ 5).2.1 = 1 ∧
    ¬ (5 : Nat) ≤ (Doodle.update Inputs.none []
        ⟨10, 20, 0, List.replicate 10 ⟨0, 50, true⟩, 0, 0⟩ 5).2.1 := by
  have h1 : (Doodle.update Inputs.none []
      ⟨10, 20, 0, List.replicate 10 ⟨0, 50, true⟩, 0, 0⟩ 5).2.1 = 1 := by
    norm_num [Doodle.update, Doodle.scoreOf, Inputs.none]
  exact ⟨h1, by rw [h1]; norm_num⟩

/-- C9 amended: for the eleven modules that only ever add to the score, a
single `update` never decreases it, from any state, input and random choice;
Doodle Jump (the one module that assigns `score = maxScoreY / 10`) never
decreases it from any state satisfying `score ≤ ⌊maxScoreY / 10⌋` — an
invariant that holds at session start (`init` zeroes `maxScoreY` while the
engine zeroes the score) and is preserved by every update. -/
theorem score_never_decreases_amended :
    (∀ (i : Inputs) (g0 g1 : Int) (st : Flappy.State) (s : Nat),
      s ≤ (Flappy.update i g0 g1 st s).2.1) ∧
    (∀ (now : Nat) (i : Inputs) (cands : List Snake.Pt) (st : Snake.State) (s : Nat),
      s ≤ (Snake.update now i cands st s).2.1) ∧
    (∀ (now : Nat) (i : Inputs) (row : List Bool) (st : Brick.State) (s : Nat),
      s ≤ (Brick.update now i row st s).2.1) ∧
    (∀ (i : Inputs) (st : Pong.State) (s : Nat), s ≤ (Pong.update i st s).2.1) ∧
    (∀ (i : Inputs) (st : Knife.State) (s : Nat), s ≤ (Knife.update i st s).2.1) ∧
    (∀ (i : Inputs) (r1 r2 r3 r4 : Int) (st : Mario.State) (s : Nat),
      s ≤ (Mario.update i r1 r2 r3 r4 st s).2.1) ∧
    (∀ (i : Inputs) (st : StackB.State) (s : Nat), s ≤ (StackB.update i st s).2.1) ∧
    (∀ (now : Nat) (i : Inputs) (rx rv : ℚ) (st : Dodge.State) (s : Nat),
      s ≤ (Dodge.update now i rx rv st s).2.1) ∧
    (∀ (now : Nat) (i : Inputs) (rl rr : Int) (st : Tunnel.State) (s : Nat),
      s ≤ (Tunnel.update now i rl rr st s).2.1) ∧
    (∀ (now : Nat) (i : Inputs) (nt : Nat) (st : Tetris.State) (s : Nat),
      s ≤ (Tetris.update now i nt st s).2.1) ∧
    (∀ (i : Inputs) (rr rf rc : Int) (st : Heli.State) (s : Nat),
      s ≤ (Heli.update i rr rf rc st s).2.1) ∧
    (∀ (xs : List ℚ), Doodle.scoreOf ((Doodle.init xs).maxScoreY / 10) = 0) ∧
    (∀ (i : Inputs) (rngs : List (ℚ × ℚ)) (st : Doodle.State) (s : Nat),
      s ≤ Doodle.scoreOf (st.maxScoreY / 10) →
      s ≤ (Doodle.update i rngs st s).2.1 ∧
      (Doodle.update i rngs st s).2.1
        ≤ Doodle.scoreOf ((Doodle.update i rngs st s).1.maxScoreY / 10)) := by
  refine ⟨?_, ?_, ?_, ?_, ?_, ?_, ?_, ?_, ?_, ?_, ?_, ?_, ?_⟩
  · intro i g0 g1 st s
    simp only [Flappy.update]
    exact le_trans (pipeStep_score_le _ _ _ _ _) (pipeStep_score_le _ _ _ _ _)
  · intro now i cands st s
    simp only [Snake.update]
    split_ifs <;> simp
  · intro now i row st s
    simp only [Brick.update]
    split <;> exact le_ite_succ _ _
  · intro i st s
    simp only [Pong.update]
    split_ifs <;> simp
  · intro i st s
    simp only [Knife.update]
    split_ifs <;> simp <;> omega
  · intro i r1 r2 r3 r4 st s
    simp only [Mario.update]
    split
    · exact le_trans (Nat.le_succ s) (entLoop_score_le _ _ _ _ _)
    · exact entLoop_score_le _ _ _ _ _
  · intro i st s
    simp only [StackB.update]
    split_ifs <;> simp
  · intro now i rx rv st s
    simp only [Dodge.update]
    exact obsLoop_score_le _ _ _ _ _
  · intro now i rl rr st s
    exact le_ite_succ _ _
  · intro now i nt st s
    simp only [Tetris.update]
    split_ifs <;>
      first
        | exact Nat.le_refl s
        | exact clearLinesGo_score_le 20 0 _ s st.dropSpeed
  · intro i rr rf rc st s
    exact le_ite_succ _ _
  · intro xs
    simp [Doodle.init, Doodle.scoreOf]
  · intro i rngs st s hs
    simp only [Doodle.update]
    by_cases hc : st.playerY + (st.playerVy + 1/5) < 32
    · simp only [if_pos hc]
      have hmono : Doodle.scoreOf (st.maxScoreY / 10)
          ≤ Doodle.scoreOf
              ((st.maxScoreY + (32 - (st.playerY + (st.playerVy + 1/5)))) / 10) := by
        unfold Doodle.scoreOf
        apply Int.toNat_le_toNat
        apply Int.floor_le_floor
        have : (0 : ℚ) < 32 - (st.playerY + (st.playerVy + 1/5)) := by linarith
        linarith
      exact ⟨le_trans hs hmono, le_refl _⟩
    · simp only [if_neg hc]
      exact ⟨le_refl s, hs⟩

/-- C9 amended witness: from a fresh Doodle session (where the invariant
holds with score 0) one update cannot decrease the score. -/
theorem score_never_decreases_amended_witness :
    0 ≤ (Doodle.update Inputs.none [] (Doodle.init []) 0).2.1 ∧
    (Doodle.update Inputs.none [] (Doodle.init []) 0).2.1
      ≤ Doodle.scoreOf ((Doodle.update Inputs.none [] (Doodle.init []) 0).1.maxScoreY / 10) :=
  score_never_decreases_amended.2.2.2.2.2.2.2.2.2.2.2.2 Inputs.none [] (Doodle.init []) 0
    (Nat.zero_le _)
